import Mathlib

/-!
Verification of the sendme-app core transfer library against its
natural-language specification.

The Rust sources under `lib/src` are shallowly embedded: paths are lists of
components, the filesystem is an association list from paths to file
contents, blob stores are functions from hashes to optional byte lists, and
every fallible operation returns `Except` or is paired with an explicit
error component.  Machine integers (`u64`, `usize`) are modelled as `Nat`
(sizes and counts stay far below the word size in all statements below);
timestamps (`i64` milliseconds) are modelled as `Int`.
-/

namespace Sendme

/-! ## Path model

A Rust `PathBuf` is modelled as the list of raw components that were pushed
onto it.  `PathBuf::push` appends the raw component (an empty component
leaves the component list unchanged, matching `Path::components`).  The
operating system interprets `""` and `"."` as no-ops and `".."` as a pop;
`normalizePath` performs that interpretation.
-/

/-- Raw path: the sequence of components pushed onto a `PathBuf`. -/
abbrev RawPath := List String

/-- Interpretation of a raw path by the filesystem: empty and `.` components
are skipped, `..` pops the last component (staying at the root when there is
nothing left to pop), every other component is appended. -/
def normalizePath (parts : RawPath) : List String :=
  parts.foldl
    (fun acc c =>
      if c = "" || c = "." then acc
      else if c = ".." then acc.dropLast
      else acc ++ [c])
    []

/-! ## lib.rs: validate_path_component -/

/-- Embedding of `validate_path_component` (lib.rs).  The Rust function only
ensures the component does not contain the character `/`; nothing else is
checked. -/
def validate_path_component (component : String) : Except String Unit :=
  if component.data.contains '/' then
    Except.error "path components must not contain the path separator /"
  else
    Except.ok ()

/-! ## import.rs: get_export_path -/

/-- Splitting of a character list at every occurrence of a separator,
keeping empty pieces, as Rust's `str::split(char)` does (the split of the
empty string is one empty piece). -/
def splitChars (sep : Char) : List Char → List (List Char)
  | [] => [[]]
  | c :: rest =>
    let r := splitChars sep rest
    if c = sep then [] :: r
    else
      match r with
      | [] => [[c]]
      | piece :: pieces => (c :: piece) :: pieces

/-- Embedding of Rust's `name.split('/')` on a string. -/
def splitSlash (name : String) : List String :=
  (splitChars '/' name.data).map (fun cs => String.mk cs)

/-- Embedding of `get_export_path` (import.rs): split the collection entry
name on `/`, validate each part with `validate_path_component`, and push
each part onto the root path. -/
def get_export_path (root : RawPath) (name : String) :
    Except String RawPath :=
  (splitSlash name).foldlM
    (fun path part => do
      let _ ← validate_path_component part
      pure (path ++ [part]))
    root

/-! ## receive.rs: size accounting

In `receive_internal`, after `get_hash_seq_and_sizes` returns the size
vector, the code computes
`total_files = sizes.len().saturating_sub(1)` and
`payload_size = sizes.iter().skip(2).sum()`.
-/

/-- Embedding of `total_files` as computed in `receive_internal`
(receive.rs line 131): `sizes.len().saturating_sub(1)`. -/
def receive_total_files (sizes : List Nat) : Nat :=
  sizes.length - 1

/-- Embedding of `payload_size` as computed in `receive_internal`
(receive.rs line 130): the sum of the size vector with its first two
entries skipped. -/
def receive_payload_size (sizes : List Nat) : Nat :=
  (sizes.drop 2).sum

/-- Embedding of `total_size` as computed in `receive_internal`
(receive.rs line 129): the sum of the whole size vector. -/
def receive_total_size (sizes : List Nat) : Nat :=
  sizes.sum

/-! ## lib.rs: get_or_create_secret

The environment is abstracted as the optional value of `IROH_SECRET`, and
the random generator as the fresh key it would produce.  `hex::decode`
accepts upper- and lower-case hex digits and requires an even number of
digits.
-/

/-- Value of a single hexadecimal digit, accepting both cases, as
`hex::decode` does. -/
def hexDigitVal (c : Char) : Option Nat :=
  if '0' ≤ c ∧ c ≤ '9' then some (c.toNat - '0'.toNat)
  else if 'a' ≤ c ∧ c ≤ 'f' then some (c.toNat - 'a'.toNat + 10)
  else if 'A' ≤ c ∧ c ≤ 'F' then some (c.toNat - 'A'.toNat + 10)
  else none

/-- Decoding of a list of hex digit characters, two characters per byte;
fails on a non-digit and on an odd number of characters, as `hex::decode`
does. -/
def hexDecodeChars : List Char → Option (List Nat)
  | [] => some []
  | [_] => none
  | c1 :: c2 :: rest => do
    let h ← hexDigitVal c1
    let l ← hexDigitVal c2
    let tail ← hexDecodeChars rest
    pure ((h * 16 + l) :: tail)

/-- Embedding of `hex::decode` on a string. -/
def hexDecode (s : String) : Option (List Nat) :=
  hexDecodeChars s.data

/-- Embedding of `get_or_create_secret` (lib.rs).  `env` is the value of the
`IROH_SECRET` environment variable (`none` when unset), `freshKey` is the
key the random generator would produce.  A set variable is hex-decoded
(`?`-propagating the decode error) and then length-checked; only when the
variable is absent is the fresh key returned. -/
def get_or_create_secret (env : Option String) (freshKey : List Nat) :
    Except String (List Nat) :=
  match env with
  | some secret =>
    match hexDecode secret with
    | none => Except.error "invalid hex in secret"
    | some bytes =>
      if bytes.length = 32 then Except.ok bytes
      else Except.error "secret key must be 32 bytes"
  | none => Except.ok freshKey

/-! ## Filesystem model

The filesystem is an association list from normalized absolute paths to
file contents (byte lists).  Writing prepends (overwriting on lookup),
removing drops the key, existence is a successful lookup — matching
`std::fs::write`, `std::fs::remove_file` and `Path::exists`.
-/

/-- Filesystem: association list from normalized paths to file contents. -/
abbrev Fs := List (List String × List Nat)

/-- Existence test for a path, as `Path::exists` observes it. -/
def fsExists (fs : Fs) (p : List String) : Bool :=
  (fs.lookup p).isSome

/-- File contents at a path, if any. -/
def fsLookup (fs : Fs) (p : List String) : Option (List Nat) :=
  fs.lookup p

/-- Writing a file (creates or overwrites). -/
def fsWrite (fs : Fs) (p : List String) (bytes : List Nat) : Fs :=
  (p, bytes) :: fs

/-- Removing a file. -/
def fsRemove (fs : Fs) (p : List String) : Fs :=
  fs.filter (fun e => !(e.1 == p))

/-! ## export.rs: export

The blob store is abstracted as a function from hashes (abstracted as
`Nat`) to the optional byte content of a complete blob; `none` makes the
per-blob export stream yield its `Error` item.  The per-entry loop of
`export` computes the target with `get_export_path`, bails out if the
target exists, and otherwise copies the blob to the target.  The error
outcome is paired with the filesystem reached so far, because files
already exported stay on disk when a later entry aborts the loop.
-/

/-- Errors surfaced by the export function. -/
inductive ExportErr
  | rootMissing
  | invalidName (msg : String)
  | conflict (target : List String)
  | blobError (hash : Nat)
deriving DecidableEq, Repr

/-- Marker file used by `export` to test that the export root is
writable. -/
def writeTestMarker (root : List String) : List String :=
  root ++ [".write_test_export"]

/-- Embedding of the per-entry loop of `export` (export.rs lines 53-129):
for each `(name, hash)` pair, compute the target, fail if it already
exists, otherwise copy the blob there; the first failure stops the loop
with the filesystem as already written. -/
def exportLoop (db : Nat → Option (List Nat)) (root : List String)
    (fs : Fs) : List (String × Nat) → Fs × Option ExportErr
  | [] => (fs, none)
  | (name, hash) :: rest =>
    match get_export_path root name with
    | Except.error e => (fs, some (ExportErr.invalidName e))
    | Except.ok target =>
      let t := normalizePath target
      if fsExists fs t then (fs, some (ExportErr.conflict t))
      else
        match db hash with
        | none => (fs, some (ExportErr.blobError hash))
        | some bytes => exportLoop db root (fsWrite fs t bytes) rest

/-- Embedding of `export` (export.rs): check that the export root exists,
test writability by creating and removing a marker file, then run the
per-entry loop.  `rootExists` abstracts `root.exists()`. -/
def exportCollection (db : Nat → Option (List Nat))
    (collection : List (String × Nat)) (root : List String)
    (rootExists : Bool) (fs : Fs) : Fs × Option ExportErr :=
  if !rootExists then (fs, some ExportErr.rootMissing)
  else
    let marker := writeTestMarker root
    let fs := fsRemove (fsWrite fs marker [116, 101, 115, 116]) marker
    exportLoop db root fs collection

/-! ## send.rs: send_internal setup and session end

The setup phase of `send_internal` is embedded as a function from the
pre-existing directory set to the directory set at session end (after the
ticket is produced and `send_internal` returns).  `path_is_cwd` is the
value of the Rust expression `cwd.join(&args.path) == cwd`, and
`path_exists` is whether `args.path.canonicalize()` succeeds inside
the importing step.
-/

/-- Setup errors of `send_internal`. -/
inductive SendErr
  | shareTwice
  | shareCwd
  | pathNotFound
deriving DecidableEq, Repr

/-- Inputs of the setup phase of `send_internal`. -/
structure SendSetupArgs where
  temp_dir : Option (List String)
  path_is_cwd : Bool
  path_exists : Bool
  suffix : String
deriving DecidableEq, Repr

/-- Working directory of a send session: `<base>/.sendme-send-<suffix>`
where `<base>` is `temp_dir` if provided, else the current working
directory, and `suffix` is the freshly drawn 16-byte value, hex encoded
(send.rs lines 66-85). -/
def sendStoreDir (cwd : List String) (args : SendSetupArgs) : List String :=
  (args.temp_dir.getD cwd) ++ [".sendme-send-" ++ args.suffix]

/-- Embedding of the setup and teardown of `send_internal` (send.rs):
refuse if the freshly named working directory already exists; refuse if no
`temp_dir` is given and the path is the current working directory; create
the working directory; refuse if the path does not exist (the
`canonicalize` inside the import step fails); otherwise produce the ticket
and return.  The result is the set of directories existing at session end;
no step removes the working directory. -/
def send_internal (cwd : List String) (dirs : List (List String))
    (args : SendSetupArgs) : Except SendErr (List (List String)) :=
  let blobs_data_dir := sendStoreDir cwd args
  if dirs.contains blobs_data_dir then
    Except.error SendErr.shareTwice
  else if args.temp_dir.isNone && args.path_is_cwd then
    Except.error SendErr.shareCwd
  else
    let dirs := dirs ++ [blobs_data_dir]
    if !args.path_exists then
      Except.error SendErr.pathNotFound
    else
      Except.ok dirs

/-! ## types.rs: ticket addressing and apply_options

Relay URLs and IP socket addresses are abstracted as opaque `Nat`
identifiers; only the relay/ip distinction matters to `apply_options`.
-/

/-- One addressing hint of an endpoint: a relay URL or a direct IP socket
address (iroh `TransportAddr`). -/
inductive TransportAddr
  | relay (url : Nat)
  | ip (addr : Nat)
deriving DecidableEq, Repr

/-- Endpoint address: endpoint id plus a set of addressing hints (iroh
`EndpointAddr`). -/
structure EndpointAddr where
  id : Nat
  addrs : List TransportAddr
deriving DecidableEq, Repr

/-- Blob format of a ticket. -/
inductive BlobFormat
  | raw
  | hashSeq
deriving DecidableEq, Repr

/-- Options for configuring what is included in an `EndpointAddr`
(types.rs `AddrInfoOptions`). -/
inductive AddrInfoOptions
  | id
  | relayAndAddresses
  | relay
  | addresses
deriving DecidableEq, Repr

/-- Recognizer for relay hints. -/
def TransportAddr.isRelay : TransportAddr → Bool
  | .relay _ => true
  | .ip _ => false

/-- Recognizer for direct IP hints. -/
def TransportAddr.isIp : TransportAddr → Bool
  | .relay _ => false
  | .ip _ => true

/-- Embedding of `apply_options` (types.rs lines 54-79). -/
def apply_options (addr : EndpointAddr) (opts : AddrInfoOptions) :
    EndpointAddr :=
  match opts with
  | AddrInfoOptions.id => { addr with addrs := [] }
  | AddrInfoOptions.relayAndAddresses => addr
  | AddrInfoOptions.relay =>
    { addr with addrs := addr.addrs.filter TransportAddr.isRelay }
  | AddrInfoOptions.addresses =>
    { addr with addrs := addr.addrs.filter TransportAddr.isIp }

/-- Ticket: endpoint address, root hash and format (iroh-blobs
`BlobTicket`). -/
structure Ticket where
  addr : EndpointAddr
  hash : Nat
  format : BlobFormat
deriving DecidableEq, Repr

/-- Filtering a ticket's addressing hints, as `send_internal` does before
`BlobTicket::new` (send.rs lines 152-155). -/
def ticketFilter (t : Ticket) (opts : AddrInfoOptions) : Ticket :=
  { t with addr := apply_options t.addr opts }

/-- Wire tag of a blob format. -/
def formatTag : BlobFormat → Nat
  | BlobFormat.raw => 0
  | BlobFormat.hashSeq => 1

/-- Modelled from the spec: wire encoding of one addressing hint inside a
ticket (the `BlobTicket` serialization lives in the external iroh-blobs
crate; section 6 of the spec fixes only that the encoding is reversible). -/
def encodeAddr : TransportAddr → List Nat
  | TransportAddr.relay u => [0, u]
  | TransportAddr.ip a => [1, a]

/-- Modelled from the spec: `BlobTicket::to_string`, abstracted to the
decoded payload `{peer_id, format, hash, addr_block}` (spec section 6);
the base encoding of that payload into ASCII is bijective and elided. -/
def ticketToWire (t : Ticket) : List Nat :=
  t.addr.id :: formatTag t.format :: t.hash :: t.addr.addrs.length ::
    (t.addr.addrs.map encodeAddr).flatten

/-- Modelled from the spec: decoder for a counted list of addressing
hints. -/
def decodeAddrs : Nat → List Nat → Option (List TransportAddr)
  | 0, [] => some []
  | 0, _ :: _ => none
  | n + 1, tag :: payload :: rest => do
    let a ←
      match tag with
      | 0 => some (TransportAddr.relay payload)
      | 1 => some (TransportAddr.ip payload)
      | _ => none
    let tail ← decodeAddrs n rest
    pure (a :: tail)
  | _ + 1, _ => none

/-- Modelled from the spec: `BlobTicket::parse` on the decoded payload
(spec section 4.3: parse error fails, a format field outside the two
accepted values fails, and `parse` inverts `to_string`). -/
def ticketParse (w : List Nat) : Option Ticket :=
  match w with
  | id :: ftag :: hash :: n :: rest => do
    let format ←
      match ftag with
      | 0 => some BlobFormat.raw
      | 1 => some BlobFormat.hashSeq
      | _ => none
    let addrs ← decodeAddrs n rest
    pure { addr := { id := id, addrs := addrs }, hash := hash,
           format := format }
  | _ => none

/-! ## nearby.rs: device table, devices(), get_device(), refresh sweep -/

/-- Device type enumeration (nearby.rs `DeviceType`). -/
inductive DeviceType
  | desktop
  | mobile
  | web
  | headless
  | server
deriving DecidableEq, Repr

/-- A discovered nearby device (nearby.rs `NearbyDevice`). -/
structure NearbyDevice where
  fingerprint : String
  deviceAlias : String
  device_model : Option String
  device_type : DeviceType
  version : String
  ip : String
  port : Nat
  last_seen : Int
  available : Bool
  pending_ticket : Option String
deriving DecidableEq, Repr

/-- Events emitted by the nearby discovery service (nearby.rs
`NearbyEvent`). -/
inductive NearbyEvent
  | deviceDiscovered (d : NearbyDevice)
  | deviceUpdated (d : NearbyDevice)
  | deviceExpired (fingerprint : String)
  | ticketReceived (fromDevice : NearbyDevice) (ticket : String)
      (message : Option String)
deriving DecidableEq, Repr

/-- Device table of `NearbyState`: fingerprint-keyed map, modelled as an
association list. -/
abbrev DeviceTable := List (String × NearbyDevice)

/-- Embedding of `NearbyDiscovery::devices` (nearby.rs lines 330-339):
the values of the device table whose `available` flag is set. -/
def nearbyDevices (table : DeviceTable) : List NearbyDevice :=
  (table.map Prod.snd).filter (fun d => d.available)

/-- Embedding of `NearbyDiscovery::get_device` (nearby.rs lines 342-344):
plain lookup by fingerprint, with no availability filter. -/
def getDevice (table : DeviceTable) (fingerprint : String) :
    Option NearbyDevice :=
  table.lookup fingerprint

/-- Embedding of the expiry sweep inside `NearbyDiscovery::refresh`
(nearby.rs lines 397-411): collect the fingerprints of devices whose
`last_seen` lies more than 30 000 ms before `now`, then clear the
`available` flag of each collected device.  The second component is the
list of events the sweep sends on the event channel; the source contains
no send in this function, so it is empty. -/
def refreshSweep (now : Int) (table : DeviceTable) :
    DeviceTable × List NearbyEvent :=
  let expired :=
    (table.filter (fun kd => 30000 < now - kd.2.last_seen)).map Prod.fst
  (table.map
    (fun kd =>
      if expired.contains kd.1 then
        (kd.1, { kd.2 with available := false })
      else kd),
   [])

/-! ## receive.rs: receive_internal

The network and the local blob store are abstracted as the responses they
give during this session.  `receive_internal` calls, in order: `local` on
the ticket's hash-and-format, then (when incomplete) `connect`,
`get_hash_seq_and_sizes` on the ticket's hash alone, the get stream, and a
`Collection::load` on the ticket's hash (polled during download and
retried afterwards — both modelled by the single response
`load_collection`); finally it exports the loaded collection.  No step
inspects the ticket's format field after the initial `local` query.
-/

/-- Errors of a receive session. -/
inductive RecvErr
  | connectFailed
  | getFailed
  | downloadFailed
  | collectionLoadFailed
  | exportFailed (e : ExportErr)
deriving DecidableEq, Repr

/-- External responses observed by one receive session. -/
structure ReceiveDeps where
  local_complete : Bool
  local_children : Nat
  local_bytes : Nat
  connect_ok : Bool
  fetched : Nat → Option (List Nat × List Nat)
  download_ok : Bool
  load_collection : Nat → Option (List (String × Nat))

/-- Result of a receive session (receive.rs `ReceiveResult`, plus the
filesystem reached). -/
structure ReceiveOutcome where
  collection : List (String × Nat)
  total_files : Nat
  payload_size : Nat
  fs : Fs
deriving DecidableEq, Repr

/-- Embedding of `receive_internal` (receive.rs lines 106-273).  When the
local store is incomplete: connect, fetch the hash sequence and sizes for
`t.hash`, compute `total_files` and `payload_size` from the size vector,
run the download stream, load the collection from `t.hash`, and export it.
When already complete: `total_files` comes from the local child count and
`payload_size` from the local byte count, and the collection is loaded the
same way.  The export root exists (`exportDirExists`) and the export loop
run exactly as in export.rs. -/
def receive_internal (t : Ticket) (deps : ReceiveDeps)
    (db : Nat → Option (List Nat)) (exportDir : List String)
    (exportDirExists : Bool) (fs : Fs) : Except RecvErr ReceiveOutcome :=
  if !deps.local_complete then
    if !deps.connect_ok then Except.error RecvErr.connectFailed
    else
      match deps.fetched t.hash with
      | none => Except.error RecvErr.getFailed
      | some (_hash_seq, sizes) =>
        let total_files := receive_total_files sizes
        let payload_size := receive_payload_size sizes
        if !deps.download_ok then Except.error RecvErr.downloadFailed
        else
          match deps.load_collection t.hash with
          | none => Except.error RecvErr.collectionLoadFailed
          | some collection =>
            match exportCollection db collection exportDir
                exportDirExists fs with
            | (_, some e) => Except.error (RecvErr.exportFailed e)
            | (fs2, none) =>
              Except.ok
                { collection := collection, total_files := total_files,
                  payload_size := payload_size, fs := fs2 }
  else
    let total_files := deps.local_children - 1
    let payload_size := deps.local_bytes
    match deps.load_collection t.hash with
    | none => Except.error RecvErr.collectionLoadFailed
    | some collection =>
      match exportCollection db collection exportDir exportDirExists fs with
      | (_, some e) => Except.error (RecvErr.exportFailed e)
      | (fs2, none) =>
        Except.ok
          { collection := collection, total_files := total_files,
            payload_size := payload_size, fs := fs2 }

/-! ## Concrete instances used in counterexamples and witnesses -/

/-- Blob store with two complete blobs, hashes 1 and 2. -/
def twoBlobDb : Nat → Option (List Nat) :=
  fun h => if h = 1 then some [10] else if h = 2 then some [20] else none

/-- Filesystem holding one pre-existing file `dst/b`. -/
def conflictFs : Fs := [(["dst", "b"], [99])]

/-- Nearby device last seen at timestamp 0. -/
def staleDevice : NearbyDevice :=
  { fingerprint := "fp1", deviceAlias := "Phone", device_model := none,
    device_type := DeviceType.mobile, version := "1.0", ip := "10.0.0.2",
    port := 53317, last_seen := 0, available := true,
    pending_ticket := none }

/-- Ticket with format `Raw` referencing hash 7 and carrying no
addressing hints. -/
def rawTicket : Ticket :=
  { addr := { id := 1, addrs := [] }, hash := 7, format := BlobFormat.raw }

/-- Session responses for a ticket whose referenced blob is a plain single
blob: the store never yields a Collection for the hash. -/
def rawBlobDeps : ReceiveDeps :=
  { local_complete := false, local_children := 0, local_bytes := 0,
    connect_ok := true, fetched := fun _ => some ([7], [32]),
    download_ok := true, load_collection := fun _ => none }

/-- Session responses for a successful fetch of a one-file collection. -/
def okDeps : ReceiveDeps :=
  { local_complete := false, local_children := 0, local_bytes := 0,
    connect_ok := true, fetched := fun _ => some ([2], [4, 6, 5]),
    download_ok := true, load_collection := fun _ => some [("f", 2)] }

/-- Blob store holding the single child blob of `okDeps`. -/
def okDb : Nat → Option (List Nat) :=
  fun h => if h = 2 then some [5, 5, 5, 5, 5] else none

/-- Outcome of the successful session driven by `okDeps`. -/
def okOutcome : ReceiveOutcome :=
  { collection := [("f", 2)], total_files := 2, payload_size := 5,
    fs := [(["dst", "f"], [5, 5, 5, 5, 5])] }

/-- Ticket with a mixed set of addressing hints. -/
def mixedTicket : Ticket :=
  { addr := { id := 4, addrs := [TransportAddr.relay 5, TransportAddr.ip 9,
      TransportAddr.relay 6] },
    hash := 11, format := BlobFormat.hashSeq }

/-! ## Theorems -/

/-- C1 (counterexample): the collection entry name `../secret` is accepted
by `get_export_path` — no component is rejected, although the claim says a
`..` component is rejected — and the resulting target, once the filesystem
resolves `..`, lies outside the export root `["export"]`. -/
theorem c1_claim_counterexample :
    get_export_path ["export"] "../secret" =
      Except.ok ["export", "..", "secret"] ∧
    (∀ e, get_export_path ["export"] "../secret" ≠ Except.error e) ∧
    normalizePath ["export", "..", "secret"] = ["secret"] ∧
    (["export"].isPrefixOf ["secret"]) = false := by
  refine ⟨rfl, ?_, rfl, rfl⟩
  intro e h
  exact Except.noConfusion (rfl.trans h)

/-- C1 (amended): during export, each slash-separated component of a
collection entry name is validated only against containing `/`, which no
component produced by splitting on `/` can; so every name is accepted and
joined onto the export root verbatim — components that are empty, `.`,
`..`, or contain `\` or NUL included — and a `..` component makes the
target escape the export directory. -/
theorem c1_export_component_validation (root : RawPath) (name : String)
    (h : ∀ p ∈ splitSlash name, p.data.contains '/' = false) :
    get_export_path root name = Except.ok (root ++ splitSlash name) := by
  have main : ∀ (parts : List String) (acc : RawPath),
      (∀ p ∈ parts, p.data.contains '/' = false) →
      parts.foldlM
        (fun path part => do
          let _ ← validate_path_component part
          pure (path ++ [part])) acc = Except.ok (acc ++ parts) := by
    intro parts
    induction parts with
    | nil => intro acc _; simp only [List.append_nil]; rfl
    | cons p ps ih =>
      intro acc hall
      have hp : p.data.contains '/' = false := hall p (by simp)
      have hps : ∀ q ∈ ps, q.data.contains '/' = false := by
        intro q hq; exact hall q (by simp [hq])
      have hv : validate_path_component p = Except.ok () := by
        simp only [validate_path_component, hp]
        rfl
      simp only [List.foldlM, hv]
      simpa [List.append_assoc] using ih (acc ++ [p]) hps
  exact main (splitSlash name) root h

/-- C1 (witness): instantiation of the validation theorem at the export
root `["export"]` and the entry name `../secret`. -/
theorem c1_export_component_validation_witness :
    (∀ p ∈ splitSlash "../secret", p.data.contains '/' = false) ∧
    get_export_path ["export"] "../secret" =
      Except.ok (["export"] ++ splitSlash "../secret") := by
  refine ⟨by decide, c1_export_component_validation ["export"] "../secret" (by decide)⟩

/-- C3 (counterexample): on the size vector `[1, 2, 4]` the code reports
`total_files = 2` but returns `payload_size = 4`, the sum of all entries
except the first two, while the claim requires the sum of all entries
except the first, which is 6. -/
theorem c3_claim_counterexample :
    receive_total_files [1, 2, 4] = 2 ∧
    receive_payload_size [1, 2, 4] = 4 ∧
    (([1, 2, 4] : List Nat).drop 1).sum = 6 ∧
    receive_payload_size [1, 2, 4] ≠ (([1, 2, 4] : List Nat).drop 1).sum := by
  refine ⟨rfl, rfl, rfl, by decide⟩

/-- C3 (amended): for the size vector obtained from the remote peer, the
reported `total_files` equals `max 0 (len(sizes) - 1)`, and the returned
`payload_size` equals the sum of all entries of `sizes` except the first
two. -/
theorem c3_size_accounting (sizes : List Nat) :
    ((receive_total_files sizes : Nat) : Int) =
      max 0 ((sizes.length : Int) - 1) ∧
    receive_payload_size sizes + (sizes.take 2).sum =
      receive_total_size sizes := by
  constructor
  · unfold receive_total_files
    omega
  · unfold receive_payload_size receive_total_size
    rw [Nat.add_comm]
    exact List.sum_take_add_sum_drop sizes 2

/-- C5 (counterexample): with `IROH_SECRET` set to a malformed value the
function fails with an error instead of generating a fresh random key; a
value of the wrong byte length also fails. -/
theorem c5_claim_counterexample :
    get_or_create_secret (some "not-hex") [0] =
      Except.error "invalid hex in secret" ∧
    get_or_create_secret (some "00") [0] =
      Except.error "secret key must be 32 bytes" ∧
    (∀ k, get_or_create_secret (some "not-hex") [0] ≠ Except.ok k) := by
  refine ⟨rfl, rfl, ?_⟩
  intro k h
  exact Except.noConfusion (rfl.trans h)

/-- C5 (amended): `get_or_create_secret` generates a fresh key only when
the `IROH_SECRET` environment variable is absent; a set but malformed
value (non-hex, or not exactly 32 bytes after decoding) makes the function
fail with an error, and a well-formed hex value of exactly 32 bytes is
parsed and returned. -/
theorem c5_secret_parsing (freshKey : List Nat) (s : String) :
    get_or_create_secret none freshKey = Except.ok freshKey ∧
    (hexDecode s = none →
      get_or_create_secret (some s) freshKey =
        Except.error "invalid hex in secret") ∧
    (∀ bytes, hexDecode s = some bytes → bytes.length ≠ 32 →
      get_or_create_secret (some s) freshKey =
        Except.error "secret key must be 32 bytes") ∧
    (∀ bytes, hexDecode s = some bytes → bytes.length = 32 →
      get_or_create_secret (some s) freshKey = Except.ok bytes) := by
  refine ⟨rfl, ?_, ?_, ?_⟩
  · intro h
    simp [get_or_create_secret, h]
  · intro bytes h hlen
    simp [get_or_create_secret, h, hlen]
  · intro bytes h hlen
    simp [get_or_create_secret, h, hlen]

/-- C5 (witness): instantiation at the malformed value `zz` and a
fresh-key value. -/
theorem c5_secret_parsing_witness :
    get_or_create_secret (some "zz") [3] =
      Except.error "invalid hex in secret" :=
  (c5_secret_parsing [3] "zz").2.1 rfl

/-- C6 (code bug): for every send session that reaches its end (the setup
succeeds and the ticket is produced), the working directory
`<base>/.sendme-send-<suffix>` is still among the existing directories —
no step of `send_internal` ever removes it, although both the spec and the
doc comment of `send` state that it is deleted on session end. -/
theorem c6_send_dir_persists (cwd : List String) (dirs : List (List String))
    (args : SendSetupArgs) (finalDirs : List (List String))
    (h : send_internal cwd dirs args = Except.ok finalDirs) :
    sendStoreDir cwd args ∈ finalDirs := by
  simp only [send_internal] at h
  split at h
  · exact Except.noConfusion h
  · split at h
    · exact Except.noConfusion h
    · split at h
      · exact Except.noConfusion h
      · have h2 : dirs ++ [sendStoreDir cwd args] = finalDirs :=
          Except.ok.inj h
        rw [← h2]
        simp

/-- C6 (witness): a concrete completed send session whose working
directory `home/.sendme-send-aa` is still present at session end. -/
theorem c6_send_dir_persists_witness :
    sendStoreDir ["home"] ⟨none, false, true, "aa"⟩ ∈
      [["home", ".sendme-send-aa"]] :=
  c6_send_dir_persists ["home"] [] ⟨none, false, true, "aa"⟩
    [["home", ".sendme-send-aa"]] rfl

/-- C7 (counterexample): a residual directory
`.sendme-send-aaaaaaaaaaaaaaaaaaaaaaaaaaaaaaaa` from another send session
does not make send refuse: the collision check only compares against the
freshly drawn random name, so with suffix `bb…b` the session proceeds and
returns successfully, although the claim says it is refused at setup. -/
theorem c7_claim_counterexample :
    send_internal ["home"]
        [["home", ".sendme-send-aaaaaaaaaaaaaaaaaaaaaaaaaaaaaaaa"]]
        ⟨none, false, true, "bbbbbbbbbbbbbbbbbbbbbbbbbbbbbbbb"⟩ =
      Except.ok
        [["home", ".sendme-send-aaaaaaaaaaaaaaaaaaaaaaaaaaaaaaaa"],
         ["home", ".sendme-send-bbbbbbbbbbbbbbbbbbbbbbbbbbbbbbbb"]] ∧
    (∀ e, send_internal ["home"]
        [["home", ".sendme-send-aaaaaaaaaaaaaaaaaaaaaaaaaaaaaaaa"]]
        ⟨none, false, true, "bbbbbbbbbbbbbbbbbbbbbbbbbbbbbbbb"⟩ ≠
      Except.error e) := by
  refine ⟨rfl, ?_⟩
  intro e h
  exact Except.noConfusion (rfl.trans h)

/-- C7 (amended): send refuses at setup exactly when the freshly named
working directory `<base>/.sendme-send-<suffix>` itself already exists,
or no `temp_dir` is given and the path is the current working directory,
or the path does not exist; a residual `.sendme-send-*` directory with a
different suffix causes no refusal. -/
theorem c7_send_refusal (cwd : List String) (dirs : List (List String))
    (args : SendSetupArgs) :
    (∃ e, send_internal cwd dirs args = Except.error e) ↔
      (sendStoreDir cwd args ∈ dirs ∨
       (args.temp_dir = none ∧ args.path_is_cwd = true) ∨
       args.path_exists = false) := by
  unfold send_internal
  by_cases hd : sendStoreDir cwd args ∈ dirs <;>
    cases htd : args.temp_dir <;>
      cases hw : args.path_is_cwd <;>
        cases hp : args.path_exists <;>
          simp [hd, htd, hw, hp]

/-- C7 (witness): instantiation of the refusal characterization at a
session whose path does not exist. -/
theorem c7_send_refusal_witness :
    ∃ e, send_internal ["home"] [] ⟨none, false, false, "aa"⟩ =
      Except.error e :=
  (c7_send_refusal ["home"] [] ⟨none, false, false, "aa"⟩).mpr
    (Or.inr (Or.inr rfl))

/-- C8 (counterexample): sweeping at time 30 001 ms a table holding one
device last seen at time 0 clears its `available` flag, but the sweep
sends no event at all — in particular no `DeviceExpired` —
although the claim says one is emitted on the transition. -/
theorem c8_claim_counterexample :
    (refreshSweep 30001 [("fp1", staleDevice)]).1 =
      [("fp1", { staleDevice with available := false })] ∧
    (refreshSweep 30001 [("fp1", staleDevice)]).2 = [] ∧
    NearbyEvent.deviceExpired "fp1" ∉
      (refreshSweep 30001 [("fp1", staleDevice)]).2 := by
  refine ⟨rfl, rfl, ?_⟩
  intro hmem
  rw [show (refreshSweep 30001 [("fp1", staleDevice)]).2 = [] from rfl]
    at hmem
  exact List.not_mem_nil _ hmem

/-- C8 (amended): every device whose `last_seen` lies more than 30 s
before sweep time is marked unavailable by the sweep, but the sweep emits
no `DeviceExpired` event (it emits no event at all). -/
theorem c8_sweep_marks_unavailable (now : Int) (table : DeviceTable)
    (fp : String) (d : NearbyDevice) (hmem : (fp, d) ∈ table)
    (hexp : 30000 < now - d.last_seen) :
    (fp, { d with available := false }) ∈ (refreshSweep now table).1 ∧
    (refreshSweep now table).2 = [] := by
  refine ⟨?_, rfl⟩
  have hf : (fp, d) ∈
      table.filter (fun kd => 30000 < now - kd.2.last_seen) := by
    rw [List.mem_filter]
    exact ⟨hmem, by simpa using hexp⟩
  have hin : fp ∈
      (table.filter (fun kd => 30000 < now - kd.2.last_seen)).map
        Prod.fst :=
    List.mem_map.mpr ⟨(fp, d), hf, rfl⟩
  have hfp : ((table.filter
      (fun kd => 30000 < now - kd.2.last_seen)).map Prod.fst).contains fp
        = true := by
    simpa using hin
  unfold refreshSweep
  refine List.mem_map.mpr ⟨(fp, d), hmem, ?_⟩
  exact if_pos hfp

/-- C8 (witness): instantiation of the sweep theorem at the stale device
last seen at time 0, swept at time 30 001 ms. -/
theorem c8_sweep_marks_unavailable_witness :
    ("fp1", { staleDevice with available := false }) ∈
      (refreshSweep 30001 [("fp1", staleDevice)]).1 ∧
    (refreshSweep 30001 [("fp1", staleDevice)]).2 = [] :=
  c8_sweep_marks_unavailable 30001 [("fp1", staleDevice)] "fp1"
    staleDevice (by simp) (by decide)

/-- Round-trip of a counted addressing-hint list through the wire
encoding. -/
theorem decodeAddrs_encode (addrs : List TransportAddr) :
    decodeAddrs addrs.length ((addrs.map encodeAddr).flatten) =
      some addrs := by
  induction addrs with
  | nil => rfl
  | cons a as ih =>
    cases a <;> simp [decodeAddrs, encodeAddr, ih]

/-- Round-trip of a ticket through the wire encoding: `parse` inverts
`to_string`. -/
theorem ticketParse_ticketToWire (t : Ticket) :
    ticketParse (ticketToWire t) = some t := by
  obtain ⟨⟨id, addrs⟩, hash, format⟩ := t
  cases format <;>
    simp [ticketToWire, ticketParse, formatTag, decodeAddrs_encode]

/-- C9: filtering a ticket's addressing hints with option `Id` and
round-tripping through `to_string`/`parse` yields the ticket back with an
empty address set; filtering with `Relay` leaves only relay-URL hints;
filtering with `Addresses` leaves only direct IP hints. -/
theorem c9_ticket_filter (t : Ticket) :
    (ticketParse (ticketToWire (ticketFilter t AddrInfoOptions.id)) =
        some (ticketFilter t AddrInfoOptions.id) ∧
      (ticketFilter t AddrInfoOptions.id).addr.addrs = []) ∧
    (ticketParse (ticketToWire (ticketFilter t AddrInfoOptions.relay)) =
        some (ticketFilter t AddrInfoOptions.relay) ∧
      ∀ a ∈ (ticketFilter t AddrInfoOptions.relay).addr.addrs,
        a.isRelay = true) ∧
    (ticketParse
        (ticketToWire (ticketFilter t AddrInfoOptions.addresses)) =
        some (ticketFilter t AddrInfoOptions.addresses) ∧
      ∀ a ∈ (ticketFilter t AddrInfoOptions.addresses).addr.addrs,
        a.isIp = true) := by
  refine ⟨⟨ticketParse_ticketToWire _, rfl⟩,
    ⟨ticketParse_ticketToWire _, ?_⟩,
    ⟨ticketParse_ticketToWire _, ?_⟩⟩
  · intro a ha
    exact (List.mem_filter.mp ha).2
  · intro a ha
    exact (List.mem_filter.mp ha).2

/-- C9 (witness): instantiation at a ticket with a mixed hint set. -/
theorem c9_ticket_filter_witness :
    (ticketFilter mixedTicket AddrInfoOptions.id).addr.addrs = [] ∧
    (ticketFilter mixedTicket AddrInfoOptions.relay).addr.addrs =
      [TransportAddr.relay 5, TransportAddr.relay 6] ∧
    (ticketFilter mixedTicket AddrInfoOptions.addresses).addr.addrs =
      [TransportAddr.ip 9] :=
  ⟨(c9_ticket_filter mixedTicket).1.2, rfl, rfl⟩

/-- Lookup in a device table after the key-preserving update performed by
the sweep. -/
theorem lookup_sweep_update (E : List String) (l : DeviceTable)
    (fp : String) :
    (l.map (fun kd =>
        if E.contains kd.1 = true then
          (kd.1, { kd.2 with available := false })
        else kd)).lookup fp =
      (l.lookup fp).map (fun d =>
        if E.contains fp = true then { d with available := false }
        else d) := by
  induction l with
  | nil => rfl
  | cons kv rest ih =>
    obtain ⟨k, v⟩ := kv
    rw [List.map_cons]
    cases hbk : (fp == k) with
    | true =>
      have hk : fp = k := eq_of_beq hbk
      subst hk
      cases hE : E.contains fp with
      | true => simp [List.lookup]
      | false => simp [List.lookup]
    | false =>
      cases hE : E.contains k <;> simpa [List.lookup, hbk] using ih

/-- Lookup success implies membership of the key-value pair. -/
theorem mem_of_lookup_some (l : DeviceTable) (fp : String)
    (d : NearbyDevice) (h : l.lookup fp = some d) : (fp, d) ∈ l := by
  induction l with
  | nil => exact Option.noConfusion h
  | cons kv rest ih =>
    obtain ⟨k, v⟩ := kv
    cases hbk : (fp == k) with
    | true =>
      have hk : fp = k := eq_of_beq hbk
      subst hk
      simp [List.lookup, hbk] at h
      subst h
      exact List.mem_cons_self _ _
    | false =>
      simp [List.lookup, hbk] at h
      exact List.mem_cons_of_mem _ (ih h)

/-- Devices with a cleared `available` flag never appear in the
`devices()` list. -/
theorem not_mem_nearbyDevices (table : DeviceTable) (x : NearbyDevice)
    (h : x.available = false) : x ∉ nearbyDevices table := by
  intro hx
  have := (List.mem_filter.mp hx).2
  rw [h] at this
  exact Bool.noConfusion this

/-- C10: `devices()` returns exactly the table values whose `available`
flag is set; after the expiry sweep marks a device unavailable, the device
is omitted from `devices()` but is still in the table and still returned
by `get_device(fingerprint)`. -/
theorem c10_devices_available (table : DeviceTable) (fp : String)
    (d : NearbyDevice) (now : Int)
    (hlook : getDevice table fp = some d)
    (hexp : 30000 < now - d.last_seen) :
    (∀ x, x ∈ nearbyDevices table ↔
      x.available = true ∧ ∃ k, (k, x) ∈ table) ∧
    getDevice (refreshSweep now table).1 fp =
      some { d with available := false } ∧
    { d with available := false } ∉ nearbyDevices (refreshSweep now table).1 := by
  refine ⟨?_, ?_, not_mem_nearbyDevices _ _ rfl⟩
  · intro x
    constructor
    · intro hx
      obtain ⟨hmem, hav⟩ := List.mem_filter.mp hx
      obtain ⟨⟨k, v⟩, hkv, hvx⟩ := List.mem_map.mp hmem
      refine ⟨hav, k, ?_⟩
      have : v = x := hvx
      rwa [← this]
    · rintro ⟨hav, k, hk⟩
      refine List.mem_filter.mpr ⟨?_, hav⟩
      exact List.mem_map.mpr ⟨(k, x), hk, rfl⟩
  · have hf : (fp, d) ∈
        table.filter (fun kd => 30000 < now - kd.2.last_seen) := by
      rw [List.mem_filter]
      exact ⟨mem_of_lookup_some table fp d hlook, by simpa using hexp⟩
    have hin : fp ∈ (table.filter
        (fun kd => 30000 < now - kd.2.last_seen)).map Prod.fst :=
      List.mem_map.mpr ⟨(fp, d), hf, rfl⟩
    have hcont : ((table.filter
        (fun kd => 30000 < now - kd.2.last_seen)).map Prod.fst).contains
          fp = true :=
      List.elem_iff.mpr hin
    unfold getDevice refreshSweep
    rw [lookup_sweep_update]
    unfold getDevice at hlook
    rw [hlook]
    simp only [hcont, if_pos]
    rfl

/-- C10 (witness): instantiation at a one-device table swept at time
30 001 ms. -/
theorem c10_devices_available_witness :
    getDevice (refreshSweep 30001 [("fp1", staleDevice)]).1 "fp1" =
      some { staleDevice with available := false } ∧
    { staleDevice with available := false } ∉
      nearbyDevices (refreshSweep 30001 [("fp1", staleDevice)]).1 :=
  ⟨(c10_devices_available [("fp1", staleDevice)] "fp1" staleDevice 30001
      rfl (by decide)).2.1,
   (c10_devices_available [("fp1", staleDevice)] "fp1" staleDevice 30001
      rfl (by decide)).2.2⟩

/-- Writing a file preserves the existence of every existing path. -/
theorem fsExists_fsWrite (fs : Fs) (p q : List String) (b : List Nat)
    (h : fsExists fs p = true) : fsExists (fsWrite fs q b) p = true := by
  unfold fsExists fsWrite
  unfold fsExists at h
  cases hpq : (p == q) with
  | true => simp [List.lookup, hpq]
  | false => simpa [List.lookup, hpq] using h

/-- Writing a file at a target that does not yet exist leaves the lookup
of every existing path unchanged. -/
theorem fsLookup_fsWrite_fresh (fs : Fs) (p q : List String)
    (b : List Nat) (hfresh : fsExists fs q = false)
    (hp : fsExists fs p = true) :
    fsLookup (fsWrite fs q b) p = fsLookup fs p := by
  unfold fsLookup fsWrite
  cases hpq : (p == q) with
  | true =>
    have hpq2 : p = q := eq_of_beq hpq
    subst hpq2
    unfold fsExists at hfresh hp
    rw [hp] at hfresh
    exact Bool.noConfusion hfresh
  | false => simp [List.lookup, hpq]

/-- Removing a file leaves the lookup of every other path unchanged. -/
theorem fsLookup_fsRemove_ne (fs : Fs) (p q : List String)
    (hne : p ≠ q) : fsLookup (fsRemove fs q) p = fsLookup fs p := by
  induction fs with
  | nil => rfl
  | cons kv rest ih =>
    obtain ⟨k, v⟩ := kv
    unfold fsRemove at ih ⊢
    cases hkq : (k == q) with
    | true =>
      have hpk : (p == k) = false :=
        beq_eq_false_iff_ne.mpr (fun h => hne (h.trans (eq_of_beq hkq)))
      simp [fsLookup, List.filter, List.lookup, hkq, hpk]
      exact ih
    | false =>
      cases hpk : (p == k) <;>
        (simp [fsLookup, List.filter, List.lookup, hkq, hpk]; try exact ih)

/-- Creating and then removing the writability marker amounts to removing
the marker. -/
theorem fsRemove_fsWrite_self (fs : Fs) (q : List String) (b : List Nat) :
    fsRemove (fsWrite fs q b) q = fsRemove fs q := by
  unfold fsRemove fsWrite
  simp [List.filter]

/-- Removing a file preserves the existence of every other path. -/
theorem fsExists_fsRemove_ne (fs : Fs) (p q : List String)
    (hne : p ≠ q) : fsExists (fsRemove fs q) p = fsExists fs p := by
  unfold fsExists
  rw [show (fsRemove fs q).lookup p = fsLookup (fsRemove fs q) p from rfl,
    fsLookup_fsRemove_ne fs p q hne]
  rfl

/-- The export loop never overwrites: every file present when it starts
keeps its contents. -/
theorem exportLoop_preserves (db : Nat → Option (List Nat))
    (root : List String) (l : List (String × Nat)) :
    ∀ (fs : Fs) (p : List String), fsExists fs p = true →
      fsLookup (exportLoop db root fs l).1 p = fsLookup fs p := by
  induction l with
  | nil => intro fs p _; rfl
  | cons e rest ih =>
    intro fs p hp
    obtain ⟨name, hash⟩ := e
    cases hge : get_export_path root name with
    | error msg => simp [exportLoop, hge]
    | ok target =>
      cases hex : fsExists fs (normalizePath target) with
      | true => simp [exportLoop, hge, hex]
      | false =>
        cases hdb : db hash with
        | none => simp [exportLoop, hge, hex, hdb]
        | some bytes =>
          have hstep : exportLoop db root fs ((name, hash) :: rest) =
              exportLoop db root
                (fsWrite fs (normalizePath target) bytes) rest := by
            simp [exportLoop, hge, hex, hdb]
          rw [hstep,
            ih (fsWrite fs (normalizePath target) bytes) p
              (fsExists_fsWrite fs p _ bytes hp),
            fsLookup_fsWrite_fresh fs p (normalizePath target) bytes hex hp]

/-- The export loop fails with a conflict error whenever the target of
some entry already exists when the loop starts. -/
theorem exportLoop_conflict (db : Nat → Option (List Nat))
    (root : List String) (l : List (String × Nat)) :
    ∀ (fs : Fs),
      (∀ e ∈ l, ∃ t, get_export_path root e.1 = Except.ok t) →
      (∀ e ∈ l, (db e.2).isSome = true) →
      (∃ e ∈ l, ∃ t, get_export_path root e.1 = Except.ok t ∧
        fsExists fs (normalizePath t) = true) →
      ∃ t, (exportLoop db root fs l).2 = some (ExportErr.conflict t) := by
  induction l with
  | nil =>
    rintro fs _ _ ⟨e, he, -⟩
    exact absurd he (List.not_mem_nil e)
  | cons hd rest ih =>
    rintro fs hnames hdb ⟨e0, he0, t0, ht0, hex0⟩
    obtain ⟨name, hash⟩ := hd
    obtain ⟨t1, ht1⟩ := hnames (name, hash) (List.mem_cons_self _ _)
    cases hex1 : fsExists fs (normalizePath t1) with
    | true =>
      exact ⟨normalizePath t1, by simp [exportLoop, ht1, hex1]⟩
    | false =>
      obtain ⟨b, hb⟩ :=
        Option.isSome_iff_exists.mp
          (hdb (name, hash) (List.mem_cons_self _ _))
      have hstep : exportLoop db root fs ((name, hash) :: rest) =
          exportLoop db root (fsWrite fs (normalizePath t1) b) rest := by
        simp [exportLoop, ht1, hex1, hb]
      rw [hstep]
      refine ih (fsWrite fs (normalizePath t1) b)
        (fun e he => hnames e (List.mem_cons_of_mem _ he))
        (fun e he => hdb e (List.mem_cons_of_mem _ he)) ?_
      rcases List.mem_cons.mp he0 with heq | hrest
      · exfalso
        rw [heq] at ht0
        rw [ht1] at ht0
        obtain rfl := Except.ok.inj ht0
        rw [hex0] at hex1
        exact Bool.noConfusion hex1
      · exact ⟨e0, hrest, t0, ht0, fsExists_fsWrite fs _ _ b hex0⟩

/-- C2 (counterexample): exporting the two-entry collection
`[(a, 1), (b, 2)]` into a directory already holding `dst/b` stops with a
conflict error, but the file `dst/a` — absent beforehand — has been
created by the session, so the filesystem is not left unchanged. -/
theorem c2_claim_counterexample :
    (exportCollection twoBlobDb [("a", 1), ("b", 2)] ["dst"] true
        conflictFs).2 = some (ExportErr.conflict ["dst", "b"]) ∧
    fsLookup (exportCollection twoBlobDb [("a", 1), ("b", 2)] ["dst"] true
        conflictFs).1 ["dst", "a"] = some [10] ∧
    fsLookup conflictFs ["dst", "a"] = none :=
  ⟨rfl, rfl, rfl⟩

/-- C2 (amended): when some export target path already exists before
export (all entry names valid, all blobs present), the session fails with
an export-conflict error, and every file present beforehand keeps its
contents — but entries processed before the first conflict have already
been written. -/
theorem c2_export_conflict (db : Nat → Option (List Nat))
    (collection : List (String × Nat)) (root : List String) (fs : Fs)
    (hnames : ∀ e ∈ collection, ∃ t, get_export_path root e.1 = Except.ok t)
    (hdb : ∀ e ∈ collection, (db e.2).isSome = true)
    (hconf : ∃ e ∈ collection, ∃ t, get_export_path root e.1 = Except.ok t ∧
      fsExists fs (normalizePath t) = true ∧
      normalizePath t ≠ writeTestMarker root) :
    (∃ t, (exportCollection db collection root true fs).2 =
      some (ExportErr.conflict t)) ∧
    (∀ p, p ≠ writeTestMarker root → fsExists fs p = true →
      fsLookup (exportCollection db collection root true fs).1 p =
        fsLookup fs p) := by
  have hec : exportCollection db collection root true fs =
      exportLoop db root (fsRemove fs (writeTestMarker root)) collection := by
    unfold exportCollection
    rw [if_neg (by simp)]
    show exportLoop db root
        (fsRemove (fsWrite fs (writeTestMarker root) [116, 101, 115, 116])
          (writeTestMarker root)) collection =
      exportLoop db root (fsRemove fs (writeTestMarker root)) collection
    rw [fsRemove_fsWrite_self]
  constructor
  · rw [hec]
    apply exportLoop_conflict db root collection _ hnames hdb
    obtain ⟨e0, he0, t0, ht0, hex0, hne0⟩ := hconf
    exact ⟨e0, he0, t0, ht0, by
      rw [fsExists_fsRemove_ne fs _ _ hne0]; exact hex0⟩
  · intro p hp hex
    rw [hec]
    rw [exportLoop_preserves db root collection _ p
      (by rw [fsExists_fsRemove_ne fs p _ hp]; exact hex)]
    exact fsLookup_fsRemove_ne fs p _ hp

/-- C2 (witness): instantiation of the conflict theorem at the concrete
two-entry export into a directory already holding `dst/b`. -/
theorem c2_export_conflict_witness :
    (∃ t, (exportCollection twoBlobDb [("a", 1), ("b", 2)] ["dst"] true
      conflictFs).2 = some (ExportErr.conflict t)) ∧
    (∀ p, p ≠ writeTestMarker ["dst"] → fsExists conflictFs p = true →
      fsLookup (exportCollection twoBlobDb [("a", 1), ("b", 2)] ["dst"]
        true conflictFs).1 p = fsLookup conflictFs p) :=
  c2_export_conflict twoBlobDb [("a", 1), ("b", 2)] ["dst"] conflictFs
    (by
      intro e he
      rcases List.mem_cons.mp he with rfl | he2
      · exact ⟨["dst", "a"], rfl⟩
      rcases List.mem_cons.mp he2 with rfl | he3
      · exact ⟨["dst", "b"], rfl⟩
      · exact absurd he3 (List.not_mem_nil e))
    (by
      intro e he
      rcases List.mem_cons.mp he with rfl | he2
      · rfl
      rcases List.mem_cons.mp he2 with rfl | he3
      · rfl
      · exact absurd he3 (List.not_mem_nil e))
    ⟨("b", 2), by simp, ["dst", "b"], rfl, rfl, by decide⟩

/-- C4 (counterexample): a well-formed `Raw`-format ticket round-trips
through parse (the format is accepted on input), but when the referenced
blob is a plain single blob — so no Collection loads from the hash — the
receive session fails instead of exporting the blob. -/
theorem c4_claim_counterexample :
    ticketParse (ticketToWire rawTicket) = some rawTicket ∧
    rawTicket.format = BlobFormat.raw ∧
    receive_internal rawTicket rawBlobDeps (fun _ => none) ["dst"] true []
      = Except.error RecvErr.collectionLoadFailed :=
  ⟨rfl, rfl, rfl⟩

/-- C4 (amended): a `Raw`-format ticket is accepted by ticket parsing
(only a format outside the two accepted values is rejected), but the
receive pipeline does not special-case `Raw`: a session completes only
when a Collection loads from the ticket's hash, and what is exported is
that collection's entries, so a `Raw` ticket referencing a non-collection
blob fails rather than exporting the single blob. -/
theorem c4_raw_ticket (t : Ticket) (deps : ReceiveDeps)
    (db : Nat → Option (List Nat)) (exportDir : List String)
    (exportDirExists : Bool) (fs : Fs) (out : ReceiveOutcome)
    (h : receive_internal t deps db exportDir exportDirExists fs =
      Except.ok out) :
    ticketParse (ticketToWire t) = some t ∧
    deps.load_collection t.hash = some out.collection := by
  refine ⟨ticketParse_ticketToWire t, ?_⟩
  unfold receive_internal at h
  repeat' split at h
  all_goals try exact Except.noConfusion h
  all_goals injection h with h2
  all_goals rw [← h2]
  all_goals assumption

/-- C4 (witness): instantiation of the theorem at a completed raw-format
session whose store yields a one-file collection for the hash. -/
theorem c4_raw_ticket_witness :
    ticketParse (ticketToWire rawTicket) = some rawTicket ∧
    okDeps.load_collection rawTicket.hash = some okOutcome.collection :=
  c4_raw_ticket rawTicket okDeps okDb ["dst"] true [] okOutcome rfl

end Sendme
